import Mathlib

/-! Two single-client character devices: `korbo` and `roulette`

A shallow embedding of `src/korbomodule/korbo.c` and `src/roulette/roulette.c`.

Conventions used by both embeddings.

* The file-scope `static` variables of a module are the fields of a `State`
  record; every file operation takes the state and returns the new one.
* `use_counter` is a C `char`. It is stored as its 8-bit representation
  (a `Nat` taken modulo 256). The code only increments it, decrements it and
  tests it against zero, and these three agree on the representation whether
  `char` is signed or unsigned.
* `loff_t *off` is the file position owned by the caller (`struct file`); it
  is an explicit argument and an explicit result. The kernel hands a driver
  only non-negative positions, so it is a `Nat`.
* `size_t len` is a `Nat`; `len <= 0` on an unsigned type is `len = 0`.
* `copy_to_user` belongs to the environment: whether the one-byte copy
  succeeds is the Boolean argument `copy_ok`.
* `get_random_bytes` belongs to the environment: the byte it stores is the
  argument `rnd` (reduced modulo 256, the range of a `u8`).
* `try_module_get` / `module_put` only touch the module reference count of
  the kernel and are not part of the device state.
* Bytes are natural numbers; a C string literal is the list of the codes of
  its characters (all texts here are ASCII).
-/

/-- Errno value of `EBUSY`. -/
def EBUSY : Int := 16

/-- Errno value of `EFAULT`. -/
def EFAULT : Int := 14

/-- The bytes of a C string literal, without the terminating NUL. -/
def cstr (s : String) : List Nat := s.toList.map Char.toNat

/-- What one `read` call hands back: the return value, the file position
after the call and the byte copied to the caller (if one was copied). -/
structure ReadResult (σ : Type) where
  state : σ
  off : Nat
  ret : Int
  out : Option Nat

/-- How a file operation that may call `panic` ends. -/
inductive Outcome where
  | ret (v : Int)
  | panic
  deriving DecidableEq, Repr

/-- The caller-side arguments of one `read` call with an explicit position
(as `pread` passes it). -/
structure ReadCall where
  len : Nat
  off : Nat
  copy_ok : Bool
  deriving DecidableEq, Repr

namespace Korbo

/-- The module variables of `korbo.c` that change: only `use_counter`. -/
structure State where
  use_counter : Nat
  deriving DecidableEq, Repr

/-- The array `static char buffer[] = "Korbo\n"`: the six characters and
the terminating NUL the initialiser adds. -/
def buffer : List Nat := cstr "Korbo\n" ++ [0]

/-- The variable `buffer_len = sizeof(buffer)`. -/
def buffer_len : Nat := buffer.length

/-- The function `dev_open` of `korbo.c`. -/
def dev_open (s : State) : State × Int :=
  if s.use_counter ≠ 0 then (s, -EBUSY)
  else ({ s with use_counter := (s.use_counter + 1) % 256 }, 0)

/-- The function `dev_release` of `korbo.c`. -/
def dev_release (s : State) : State × Int :=
  ({ s with use_counter := (s.use_counter + 255) % 256 }, 0)

/-- The function `dev_read` of `korbo.c`. -/
def dev_read (s : State) (len off : Nat) (copy_ok : Bool) : ReadResult State :=
  if off ≥ buffer_len ∨ len = 0 then ⟨s, off, 0, none⟩
  else if ¬ copy_ok then ⟨s, off, -EFAULT, none⟩
  else ⟨s, off + 1, 1, buffer[off]?⟩

/-- Successive `read` calls on one open file: the position left by a call is
the position of the next one. Each call carries its `len` and whether its
copy succeeds. Returns the final state and position. -/
def readSeq (s : State) (off : Nat) : List (Nat × Bool) → State × Nat
  | [] => (s, off)
  | c :: cs =>
    let r := dev_read s c.1 off c.2
    readSeq r.state r.off cs

/-- Read with `len > 0` and succeeding copies until a call returns 0 (or a
negative value), at most `fuel` calls, collecting the bytes delivered. -/
def drain (s : State) (len off : Nat) : Nat → List Nat
  | 0 => []
  | fuel + 1 =>
    let r := dev_read s len off true
    if r.ret ≤ 0 then [] else r.out.toList ++ drain r.state len r.off fuel

end Korbo

namespace Roulette

/-- The variable `buffer_len = sizeof(buffer)` for `char buffer[512]`. -/
def buffer_len : Nat := 512

/-- The contents of the array `char buffer[512]`: 512 bytes. -/
abbrev Buf : Type := { l : List Nat // l.length = buffer_len }

/-- The module variables of `roulette.c`. -/
structure State where
  use_counter : Nat
  buffer : Buf
  random_bullet : Nat
  do_panic : Bool
  show_warning : Bool
  warning_over : Bool
  deriving DecidableEq

/-- The text written when `show_warning` is set. -/
def warning_text : String :=
  "WARNING, PLEASE READ!\n" ++
  "This module CAN AND WILL TRIGGER A KERNEL PANIC, and I HAVE NEVER SEEN IT SYNC.\n" ++
  "I AM NOT RESPONSIBLE IF YOUR DATA ENDS UP SCREWED BEYOND RECOVERY.\n" ++
  "IF YOU DON'T FEEL SAFE ANYMORE, THEN UNINSTALL THIS MODULE.\n" ++
  "THIS IS YOUR ONLY WARNING.\n" ++
  "USE AT YOUR OWN RISK.\n" ++
  "Otherwise, if you still want to play for some reason,\n" ++
  "then read this device again to immediately start the game.\n" ++
  "Also, this should hopefully be obvious, but please don't do this in real life.\n"

/-- The text written for a draw other than 0. -/
def blank_text : String := "Blank.\n"

/-- The text written for the draw 0. -/
def bang_text : String := "BANG!\n"

/-- The call `memset(buf, c, n)`: the first `n` bytes become `c`. -/
def memset (buf : Buf) (c n : Nat) : Buf :=
  ⟨List.replicate (min n buf.val.length) c ++ buf.val.drop n, by
    have h := buf.property
    simp only [List.length_append, List.length_replicate, List.length_drop]
    omega⟩

/-- The call `sprintf(buf, text)` for a format without conversions: the
bytes of the text and a terminating NUL overwrite the start of `buf`. The
array keeps its size; the three texts of the module fit with their NUL
(`Roulette.text_fits`), so nothing is cut off by `take`. -/
def sprintf (buf : Buf) (text : List Nat) : Buf :=
  ⟨(text ++ 0 :: buf.val.drop (text.length + 1)).take buf.val.length, by
    have h := buf.property
    simp only [List.length_take, List.length_append, List.length_cons, List.length_drop]
    omega⟩

/-- The zero-initialised statics of the module before `modinit` runs. -/
def initial : State :=
  { use_counter := 0, buffer := ⟨List.replicate buffer_len 0, List.length_replicate _ _⟩,
    random_bullet := 0, do_panic := false, show_warning := false, warning_over := false }

/-- The function `modinit` on its successful path: the two assignments it
makes to the device state. -/
def modinit (s : State) : State :=
  { s with show_warning := true, warning_over := false }

/-- The function `dev_open` of `roulette.c`; `rnd` is the byte
`get_random_bytes` stores. -/
def dev_open (s : State) (rnd : Nat) : State × Int :=
  if s.use_counter ≠ 0 then (s, -EBUSY)
  else
    ({ s with use_counter := (s.use_counter + 1) % 256,
              random_bullet := (rnd % 256) % 6 }, 0)

/-- The function `dev_release` of `roulette.c`. The state returned on the
`panic` path is the state at the moment `panic` is called. -/
def dev_release (s : State) : State × Outcome :=
  let s1 := { s with use_counter := (s.use_counter + 255) % 256 }
  let s2 := if s1.warning_over then { s1 with show_warning := false } else s1
  if s2.do_panic then (s2, Outcome.panic) else (s2, Outcome.ret 0)

/-- The first part of `dev_read`: clear the buffer and write the text chosen
by `show_warning` and `random_bullet`, setting `warning_over` or `do_panic`. -/
def generate (s : State) : State :=
  let s0 := { s with buffer := memset s.buffer 0 buffer_len }
  if s0.show_warning then
    { s0 with buffer := sprintf s0.buffer (cstr warning_text), warning_over := true }
  else if s0.random_bullet ≠ 0 then
    { s0 with buffer := sprintf s0.buffer (cstr blank_text) }
  else
    { s0 with buffer := sprintf s0.buffer (cstr bang_text), do_panic := true }

/-- The function `dev_read` of `roulette.c`. -/
def dev_read (s : State) (len off : Nat) (copy_ok : Bool) : ReadResult State :=
  let s1 := generate s
  if off ≥ buffer_len ∨ len = 0 then ⟨s1, off, 0, none⟩
  else if ¬ copy_ok then ⟨s1, off, -EFAULT, none⟩
  else ⟨s1, off + 1, 1, s1.buffer.val[off]?⟩

/-- Successive `read` calls on one open file: the position left by a call is
the position of the next one. Returns the final state and position. -/
def readSeq (s : State) (off : Nat) : List (Nat × Bool) → State × Nat
  | [] => (s, off)
  | c :: cs =>
    let r := dev_read s c.1 off c.2
    readSeq r.state r.off cs

/-- Read with `len > 0` and succeeding copies until a call returns 0 (or a
negative value), at most `fuel` calls, collecting the bytes delivered. -/
def drain (s : State) (len off : Nat) : Nat → List Nat
  | 0 => []
  | fuel + 1 =>
    let r := dev_read s len off true
    if r.ret ≤ 0 then [] else r.out.toList ++ drain r.state len r.off fuel

/-- The state after a list of `read` calls, each at its own position. -/
def readAll (s : State) : List ReadCall → State
  | [] => s
  | c :: cs => readAll (dev_read s c.len c.off c.copy_ok).state cs

/-- The states in which the `read` calls of a list are made, in order. -/
def readPre (s : State) : List ReadCall → List State
  | [] => []
  | c :: cs => s :: readPre (dev_read s c.len c.off c.copy_ok).state cs

/-- One session: the byte drawn at `open` and the `read` calls made before
`release`. -/
structure Session where
  rnd : Nat
  reads : List ReadCall
  deriving DecidableEq, Repr

/-- Run whole sessions `open, read*, release` one after the other. The result
is the state after the last release, or `none` when the sequence cannot be
carried out: an `open` was refused, or a `release` called `panic` (after
which the host runs nothing more). -/
def runSessions (s : State) : List Session → Option State
  | [] => some s
  | x :: xs =>
    if (dev_open s x.rnd).2 ≠ 0 then none
    else
      match dev_release (readAll (dev_open s x.rnd).1 x.reads) with
      | (s2, Outcome.ret _) => runSessions s2 xs
      | (_, Outcome.panic) => none

/-- One call of a file operation of the device. -/
inductive Call where
  | doOpen (rnd : Nat)
  | doRead (len off : Nat) (copy_ok : Bool)
  | doRelease
  deriving DecidableEq, Repr

/-- The effect of one call on the device state, and how the call ends. -/
def step (s : State) : Call → State × Outcome
  | Call.doOpen rnd => ((dev_open s rnd).1, Outcome.ret (dev_open s rnd).2)
  | Call.doRead len off copy_ok =>
    ((dev_read s len off copy_ok).state, Outcome.ret (dev_read s len off copy_ok).ret)
  | Call.doRelease => dev_release s

/-- Carry out a list of calls in any order; every call is listed with the
state it leaves and how it ends. Nothing runs after a `panic`. -/
def exec (s : State) : List Call → List (Call × State × Outcome)
  | [] => []
  | c :: cs =>
    match step s c with
    | (s1, Outcome.panic) => [(c, s1, Outcome.panic)]
    | (s1, Outcome.ret v) => (c, s1, Outcome.ret v) :: exec s1 cs

/-- The buffer that holds a text: the text, then zero bytes up to the 512
bytes of the array. -/
def padded (text : List Nat) : List Nat :=
  text ++ List.replicate (buffer_len - text.length) 0

/-- The state of the first session: the device opened right after module
initialisation (the byte drawn is 0). -/
def firstOpen : State := (dev_open (modinit initial) 0).1

/-- The session that reads the warning: one `read` call of one byte. -/
def warningSession : Session := ⟨3, [⟨1, 0, true⟩]⟩

/-- The state the warning session leaves behind. -/
def afterWarning : State :=
  (dev_release (readAll (dev_open (modinit initial) 3).1 [⟨1, 0, true⟩])).1

/-- How many of the 256 values of the random byte give the bullet position
`v` when the device is opened in state `s`. -/
def bullet_count (s : State) (v : Nat) : Nat :=
  ((List.range 256).filter (fun b => (dev_open s b).1.random_bullet = v)).length

end Roulette

/-! ## The shared read primitive on the constant-string device -/

namespace Korbo

theorem korbo_buffer_len_eq : buffer_len = 7 := by decide

theorem korbo_buffer_eq : buffer = [75, 111, 114, 98, 111, 10, 0] := by decide

theorem korbo_dev_read_state (s : State) (len off : Nat) (copy_ok : Bool) :
    (dev_read s len off copy_ok).state = s := by
  unfold dev_read
  split_ifs <;> rfl

theorem korbo_dev_read_off_le (s : State) (len off : Nat) (copy_ok : Bool)
    (h : off ≤ buffer_len) : (dev_read s len off copy_ok).off ≤ buffer_len := by
  unfold dev_read
  split_ifs with h1 h2
  · exact h
  · have h3 : off < buffer_len := by omega
    exact h3
  · exact h

theorem korbo_readSeq_off_le (cs : List (Nat × Bool)) :
    ∀ (s : State) (off : Nat), off ≤ buffer_len → (readSeq s off cs).2 ≤ buffer_len := by
  induction cs with
  | nil => intro s off h; exact h
  | cons c cs ih =>
    intro s off h
    simp only [readSeq]
    exact ih _ _ (korbo_dev_read_off_le s c.1 off c.2 h)

theorem korbo_readSeq_state (cs : List (Nat × Bool)) :
    ∀ (s : State) (off : Nat), (readSeq s off cs).1 = s := by
  induction cs with
  | nil => intro s off; rfl
  | cons c cs ih =>
    intro s off
    simp only [readSeq, ih, korbo_dev_read_state]

theorem korbo_dev_open_ok (s : State) (h : (dev_open s).2 = 0) :
    s.use_counter = 0 ∧ (dev_open s).1.use_counter = 1 := by
  by_cases h0 : s.use_counter = 0
  · refine ⟨h0, ?_⟩
    simp [dev_open, h0]
  · exfalso
    revert h
    simp [dev_open, h0, EBUSY]

theorem korbo_drain_eq (fuel : Nat) :
    ∀ (s : State) (len off : Nat),
      drain s (len + 1) off fuel = (buffer.drop off).take fuel := by
  induction fuel with
  | zero => intro s len off; simp [drain]
  | succ fuel ih =>
    intro s len off
    by_cases h : off < buffer.length
    · have hr : dev_read s (len + 1) off true = ⟨s, off + 1, 1, buffer[off]?⟩ := by
        unfold dev_read buffer_len
        simp [h]
      simp only [drain, hr, ih]
      rw [List.getElem?_eq_getElem h, List.drop_eq_getElem_cons h]
      simp only [Option.toList, List.singleton_append, List.take_succ_cons]
      simp
    · have hr : dev_read s (len + 1) off true = ⟨s, off, 0, none⟩ := by
        unfold dev_read buffer_len
        simp [Nat.le_of_not_lt h]
      have hd : buffer.drop off = [] := List.drop_eq_nil_of_le (Nat.le_of_not_lt h)
      simp [drain, hr, hd]

end Korbo

/-! ## Content generation on the roulette device -/

namespace Roulette

set_option maxRecDepth 100000 in
theorem text_fits :
    (cstr warning_text).length = 470 ∧ (cstr blank_text).length = 7 ∧
      (cstr bang_text).length = 6 := by
  decide

theorem memset_val (b : Buf) : (memset b 0 buffer_len).val = List.replicate buffer_len 0 := by
  have h := b.property
  simp [memset, h]

theorem sprintf_memset_val (b : Buf) (t : List Nat) (h : t.length + 1 ≤ buffer_len) :
    (sprintf (memset b 0 buffer_len) t).val = padded t := by
  have hb := (memset b 0 buffer_len).property
  have hz : (0 : Nat) :: List.replicate (buffer_len - (t.length + 1)) 0
      = List.replicate (buffer_len - t.length) 0 := by
    rw [← List.replicate_succ]
    congr 1
    omega
  simp only [sprintf, memset_val, List.drop_replicate, List.length_replicate, hz, padded]
  apply List.take_of_length_le
  simp only [List.length_append, List.length_replicate]
  omega

theorem generate_buffer (s : State) :
    (generate s).buffer.val =
      if s.show_warning then padded (cstr warning_text)
      else if s.random_bullet ≠ 0 then padded (cstr blank_text)
      else padded (cstr bang_text) := by
  obtain ⟨hw, hb, hg⟩ := text_fits
  unfold generate
  simp only
  split_ifs
  · exact sprintf_memset_val _ _ (by rw [hw]; decide)
  · exact sprintf_memset_val _ _ (by rw [hb]; decide)
  · exact sprintf_memset_val _ _ (by rw [hg]; decide)

theorem generate_use_counter (s : State) : (generate s).use_counter = s.use_counter := by
  unfold generate
  simp only
  split_ifs <;> rfl

theorem generate_show_warning (s : State) : (generate s).show_warning = s.show_warning := by
  unfold generate
  simp only
  split_ifs <;> rfl

theorem generate_random_bullet (s : State) :
    (generate s).random_bullet = s.random_bullet := by
  unfold generate
  simp only
  split_ifs <;> rfl

theorem generate_warning_over (s : State) :
    (generate s).warning_over = (s.warning_over || s.show_warning) := by
  unfold generate
  simp only
  split_ifs with h1 h2 <;> simp_all

theorem generate_do_panic (s : State) :
    (generate s).do_panic =
      (s.do_panic || (!s.show_warning && decide (s.random_bullet = 0))) := by
  unfold generate
  simp only
  split_ifs with h1 h2 <;> simp_all

theorem State.ext_fields {a b : State} (h1 : a.use_counter = b.use_counter)
    (h2 : a.buffer.val = b.buffer.val) (h3 : a.random_bullet = b.random_bullet)
    (h4 : a.do_panic = b.do_panic) (h5 : a.show_warning = b.show_warning)
    (h6 : a.warning_over = b.warning_over) : a = b := by
  cases a
  cases b
  simp only [State.mk.injEq]
  exact ⟨h1, Subtype.ext h2, h3, h4, h5, h6⟩

theorem generate_idem (s : State) : generate (generate s) = generate s := by
  apply State.ext_fields
  · rw [generate_use_counter]
  · rw [generate_buffer, generate_buffer, generate_show_warning, generate_random_bullet]
  · rw [generate_random_bullet]
  · rw [generate_do_panic, generate_do_panic, generate_show_warning, generate_random_bullet]
    cases s.do_panic <;> cases s.show_warning <;> simp
  · rw [generate_show_warning]
  · rw [generate_warning_over, generate_warning_over, generate_show_warning]
    cases s.warning_over <;> cases s.show_warning <;> simp

theorem dev_read_state (s : State) (len off : Nat) (copy_ok : Bool) :
    (dev_read s len off copy_ok).state = generate s := by
  unfold dev_read
  simp only
  split_ifs <;> rfl

theorem dev_read_off_le (s : State) (len off : Nat) (copy_ok : Bool)
    (h : off ≤ buffer_len) : (dev_read s len off copy_ok).off ≤ buffer_len := by
  unfold dev_read
  simp only
  split_ifs with h1 h2
  · exact h
  · have h3 : off < buffer_len := by omega
    exact h3
  · exact h

theorem readSeq_off_le (cs : List (Nat × Bool)) :
    ∀ (s : State) (off : Nat), off ≤ buffer_len → (readSeq s off cs).2 ≤ buffer_len := by
  induction cs with
  | nil => intro s off h; exact h
  | cons c cs ih =>
    intro s off h
    simp only [readSeq]
    exact ih _ _ (dev_read_off_le s c.1 off c.2 h)

theorem drain_eq (fuel : Nat) :
    ∀ (s : State) (len off : Nat),
      drain s (len + 1) off fuel = ((generate s).buffer.val.drop off).take fuel := by
  induction fuel with
  | zero => intro s len off; simp [drain]
  | succ fuel ih =>
    intro s len off
    have hlen : (generate s).buffer.val.length = buffer_len := (generate s).buffer.property
    by_cases h : off < buffer_len
    · have h2 : off < (generate s).buffer.val.length := by rw [hlen]; exact h
      have hr : dev_read s (len + 1) off true
          = ⟨generate s, off + 1, 1, (generate s).buffer.val[off]?⟩ := by
        unfold dev_read
        simp [h]
      simp only [drain, hr, ih, generate_idem]
      rw [List.getElem?_eq_getElem h2, List.drop_eq_getElem_cons h2]
      simp only [Option.toList, List.singleton_append, List.take_succ_cons]
      simp
    · have hr : dev_read s (len + 1) off true = ⟨generate s, off, 0, none⟩ := by
        unfold dev_read
        simp [Nat.le_of_not_lt h]
      have hd : (generate s).buffer.val.drop off = [] :=
        List.drop_eq_nil_of_le (by rw [hlen]; exact Nat.le_of_not_lt h)
      simp [drain, hr, hd]

/-! ## Sessions on the roulette device -/

theorem readAll_use_counter (rs : List ReadCall) :
    ∀ s : State, (readAll s rs).use_counter = s.use_counter := by
  induction rs with
  | nil => intro s; rfl
  | cons c cs ih =>
    intro s
    simp only [readAll, ih, dev_read_state, generate_use_counter]

theorem readAll_show_warning (rs : List ReadCall) :
    ∀ s : State, (readAll s rs).show_warning = s.show_warning := by
  induction rs with
  | nil => intro s; rfl
  | cons c cs ih =>
    intro s
    simp only [readAll, ih, dev_read_state, generate_show_warning]

theorem readAll_random_bullet (rs : List ReadCall) :
    ∀ s : State, (readAll s rs).random_bullet = s.random_bullet := by
  induction rs with
  | nil => intro s; rfl
  | cons c cs ih =>
    intro s
    simp only [readAll, ih, dev_read_state, generate_random_bullet]

theorem readAll_do_panic (rs : List ReadCall) :
    ∀ s : State, (readAll s rs).do_panic =
      (s.do_panic || (!rs.isEmpty && (!s.show_warning && decide (s.random_bullet = 0)))) := by
  induction rs with
  | nil => intro s; simp [readAll]
  | cons c cs ih =>
    intro s
    simp only [readAll, ih, dev_read_state, generate_do_panic, generate_show_warning,
      generate_random_bullet, List.isEmpty_cons]
    cases s.do_panic <;> cases s.show_warning <;> cases cs.isEmpty <;> simp

theorem readAll_warning_over (rs : List ReadCall) :
    ∀ s : State, (readAll s rs).warning_over =
      (s.warning_over || (!rs.isEmpty && s.show_warning)) := by
  induction rs with
  | nil => intro s; simp [readAll]
  | cons c cs ih =>
    intro s
    simp only [readAll, ih, dev_read_state, generate_warning_over, generate_show_warning,
      List.isEmpty_cons]
    cases s.warning_over <;> cases s.show_warning <;> cases cs.isEmpty <;> simp

theorem readPre_mem (rs : List ReadCall) :
    ∀ (s p : State), p ∈ readPre s rs →
      p.show_warning = s.show_warning ∧ p.random_bullet = s.random_bullet := by
  induction rs with
  | nil => intro s p h; simp [readPre] at h
  | cons c cs ih =>
    intro s p h
    simp only [readPre, List.mem_cons] at h
    rcases h with h | h
    · subst h; exact ⟨rfl, rfl⟩
    · have := ih _ _ h
      simpa only [dev_read_state, generate_show_warning, generate_random_bullet] using this

theorem readPre_exists (rs : List ReadCall) (s : State) (P : Bool → Nat → Prop) :
    (∃ p ∈ readPre s rs, P p.show_warning p.random_bullet) ↔
      (rs.isEmpty = false ∧ P s.show_warning s.random_bullet) := by
  constructor
  · rintro ⟨p, hp, hP⟩
    obtain ⟨h1, h2⟩ := readPre_mem rs s p hp
    rw [h1, h2] at hP
    refine ⟨?_, hP⟩
    cases rs with
    | nil => simp [readPre] at hp
    | cons c cs => rfl
  · rintro ⟨hne, hP⟩
    cases rs with
    | nil => simp at hne
    | cons c cs => exact ⟨s, by simp [readPre], hP⟩

theorem dev_open_show_warning (s : State) (rnd : Nat) :
    (dev_open s rnd).1.show_warning = s.show_warning := by
  unfold dev_open
  split_ifs <;> rfl

theorem dev_open_do_panic (s : State) (rnd : Nat) :
    (dev_open s rnd).1.do_panic = s.do_panic := by
  unfold dev_open
  split_ifs <;> rfl

theorem dev_release_show_warning (s : State) :
    (dev_release s).1.show_warning = (s.show_warning && !s.warning_over) := by
  unfold dev_release
  simp only
  split_ifs <;> simp_all

theorem dev_release_do_panic (s : State) : (dev_release s).1.do_panic = s.do_panic := by
  unfold dev_release
  simp only
  split_ifs <;> rfl

theorem dev_release_use_counter (s : State) :
    (dev_release s).1.use_counter = (s.use_counter + 255) % 256 := by
  unfold dev_release
  simp only
  split_ifs <;> rfl

theorem dev_release_outcome (s : State) :
    (dev_release s).2 = if s.do_panic then Outcome.panic else Outcome.ret 0 := by
  unfold dev_release
  simp only
  split_ifs <;> simp_all

theorem dev_open_ok (s : State) (rnd : Nat) (h : s.use_counter = 0) :
    (dev_open s rnd).2 = 0 ∧ (dev_open s rnd).1.use_counter = 1 ∧
      (dev_open s rnd).1.random_bullet = rnd % 256 % 6 := by
  unfold dev_open
  simp [h]

/-- After whole sessions that all returned, the gate is free and the
deferred failure is not armed. -/
theorem runSessions_inv (ss : List Session) :
    ∀ (s s1 : State), s.use_counter = 0 → s.do_panic = false →
      runSessions s ss = some s1 → s1.use_counter = 0 ∧ s1.do_panic = false := by
  induction ss with
  | nil =>
    intro s s1 h1 h2 h
    simp only [runSessions, Option.some.injEq] at h
    subst h
    exact ⟨h1, h2⟩
  | cons x xs ih =>
    intro s s1 h1 h2 h
    obtain ⟨ho, hc, _⟩ := dev_open_ok s x.rnd h1
    simp only [runSessions, ho, ne_eq, not_true_eq_false, if_false] at h
    split at h
    · rename_i s2 v heq
      have h3 : s2 = (dev_release (readAll (dev_open s x.rnd).1 x.reads)).1 := by rw [heq]
      have h4 : (dev_release (readAll (dev_open s x.rnd).1 x.reads)).2 = Outcome.ret v := by
        rw [heq]
      apply ih s2 s1 _ _ h
      · rw [h3, dev_release_use_counter, readAll_use_counter, hc]
      · rw [h3, dev_release_do_panic]
        rw [dev_release_outcome] at h4
        split_ifs at h4 with h5
        simpa using h5
    · exact absurd h (by simp)

end Roulette

/-! ## Sessions from module initialisation: the deferred failure -/

namespace Roulette

/-- C1: in a call sequence that starts at module initialisation and is made
of whole sessions `open, read*, release`, the `open` of the next session
succeeds, its `release` calls `panic` exactly when the session is armed
(`do_panic` is set), the session is armed exactly when one of its `read`
calls was made while `show_warning` was false and `random_bullet` was 0, and
a `release` of a session that is not armed returns 0. -/
theorem release_panics_iff_armed (ss : List Session) (s : State) (x : Session)
    (h : runSessions (modinit initial) ss = some s) :
    (dev_open s x.rnd).2 = 0 ∧
    ((dev_release (readAll (dev_open s x.rnd).1 x.reads)).2 = Outcome.panic ↔
      (readAll (dev_open s x.rnd).1 x.reads).do_panic = true) ∧
    ((readAll (dev_open s x.rnd).1 x.reads).do_panic = true ↔
      ∃ p ∈ readPre (dev_open s x.rnd).1 x.reads,
        p.show_warning = false ∧ p.random_bullet = 0) ∧
    ((readAll (dev_open s x.rnd).1 x.reads).do_panic = false →
      (dev_release (readAll (dev_open s x.rnd).1 x.reads)).2 = Outcome.ret 0) := by
  obtain ⟨hc, hp⟩ := runSessions_inv ss (modinit initial) s rfl rfl h
  obtain ⟨ho, _, _⟩ := dev_open_ok s x.rnd hc
  refine ⟨ho, ?_, ?_, ?_⟩
  · rw [dev_release_outcome]
    split_ifs with h1
    · simp [h1]
    · simp [h1]
  · rw [readPre_exists x.reads (dev_open s x.rnd).1 (fun w b => w = false ∧ b = 0),
      readAll_do_panic, dev_open_do_panic, hp]
    cases x.reads.isEmpty <;> cases (dev_open s x.rnd).1.show_warning <;> simp
  · intro h1
    rw [dev_release_outcome, h1]
    rfl

theorem release_panics_iff_armed_witness :
    runSessions (modinit initial) [warningSession] = some afterWarning ∧
      (dev_release (readAll (dev_open afterWarning 6).1 [⟨0, 0, true⟩])).2 = Outcome.panic ∧
      (dev_release (readAll (dev_open afterWarning 7).1 [⟨1, 0, true⟩])).2 = Outcome.ret 0 :=
  ⟨by rfl,
   ((release_panics_iff_armed [warningSession] afterWarning ⟨6, [⟨0, 0, true⟩]⟩ (by rfl)).2.1).mpr
     (by rfl),
   (release_panics_iff_armed [warningSession] afterWarning ⟨7, [⟨1, 0, true⟩]⟩ (by rfl)).2.2.2
     (by rfl)⟩

end Roulette

/-! ## The session gate -/

namespace Roulette

/-- C3: while a session is active (`use_counter` is not 0), `open` returns
`-EBUSY` and returns the device state it was given, whatever byte the random
source would have produced: no field changes and no draw is stored. -/
theorem open_busy (s : State) (h : s.use_counter ≠ 0) (rnd : Nat) :
    dev_open s rnd = (s, -EBUSY) := by
  unfold dev_open
  simp [h]

theorem open_busy_witness :
    firstOpen.use_counter ≠ 0 ∧ dev_open firstOpen 5 = (firstOpen, -EBUSY) :=
  ⟨by decide, open_busy firstOpen (by decide) 5⟩

/-- C6 (evaluation of the code): an `open` right after module initialisation
succeeds and stores a bullet position below 6; of the 256 values of the random
byte, 43 give each of the positions 0, 1, 2, 3 and 42 give each of 4 and 5;
the byte 252 is one of the 43 that give position 0. The positions are not
equally likely: 6 times 43 is not 256. -/
theorem bullet_count_not_uniform :
    (∀ rnd : Nat, (dev_open (modinit initial) rnd).2 = 0 ∧
      (dev_open (modinit initial) rnd).1.random_bullet < 6) ∧
    bullet_count (modinit initial) 0 = 43 ∧ bullet_count (modinit initial) 1 = 43 ∧
    bullet_count (modinit initial) 2 = 43 ∧ bullet_count (modinit initial) 3 = 43 ∧
    bullet_count (modinit initial) 4 = 42 ∧ bullet_count (modinit initial) 5 = 42 ∧
    (dev_open (modinit initial) 252).1.random_bullet = 0 ∧
    6 * bullet_count (modinit initial) 0 ≠ 256 := by
  refine ⟨fun rnd => ?_, ?_⟩
  · obtain ⟨h1, _, h3⟩ := dev_open_ok (modinit initial) rnd rfl
    rw [h3]
    exact ⟨h1, Nat.mod_lt _ (by decide)⟩
  · set_option maxRecDepth 100000 in decide

end Roulette

/-- C9, as stated, fails: on an idle device (`use_counter` is 0) `release`
returns normally and leaves `use_counter` at 255, and the `open` made right
after it is refused with `-EBUSY`, on both devices. -/
theorem release_idle_blocks_open :
    (Korbo.dev_release ⟨0⟩).2 = 0 ∧ (Korbo.dev_release ⟨0⟩).1.use_counter = 255 ∧
    (Korbo.dev_open (Korbo.dev_release ⟨0⟩).1).2 = -EBUSY ∧
    (Roulette.dev_release (Roulette.modinit Roulette.initial)).2 = Outcome.ret 0 ∧
    (Roulette.dev_release (Roulette.modinit Roulette.initial)).1.use_counter = 255 ∧
    (Roulette.dev_open (Roulette.dev_release (Roulette.modinit Roulette.initial)).1 0).2
      = -EBUSY := by
  decide

/-- C9, amended: on both devices `release` decrements `use_counter`; it leaves
the gate inactive (`use_counter` is 0) exactly when `use_counter` was 1 before
the call. That is the value in every session entered through a successful
`open`: an `open` that returns 0 leaves `use_counter` at 1, the `read` calls of
the session keep it, the `release` of the session then leaves 0, and an `open`
made right after that release succeeds. -/
theorem release_frees_gate (k : Korbo.State) (r : Roulette.State) (rnd rnd2 : Nat) :
    ((Korbo.dev_release k).1.use_counter = 0 ↔ k.use_counter % 256 = 1) ∧
    (k.use_counter = 1 →
      (Korbo.dev_release k).2 = 0 ∧ (Korbo.dev_open (Korbo.dev_release k).1).2 = 0) ∧
    ((Roulette.dev_release r).1.use_counter = 0 ↔ r.use_counter % 256 = 1) ∧
    (r.use_counter = 1 →
      (Roulette.dev_open (Roulette.dev_release r).1 rnd).2 = 0) ∧
    ((Korbo.dev_open k).2 = 0 →
      (Korbo.dev_open k).1.use_counter = 1 ∧
      ∀ (cs : List (Nat × Bool)) (off : Nat),
        (Korbo.readSeq (Korbo.dev_open k).1 off cs).1.use_counter = 1 ∧
        (Korbo.dev_release (Korbo.readSeq (Korbo.dev_open k).1 off cs).1).2 = 0 ∧
        (Korbo.dev_release (Korbo.readSeq (Korbo.dev_open k).1 off cs).1).1.use_counter = 0 ∧
        (Korbo.dev_open
          (Korbo.dev_release (Korbo.readSeq (Korbo.dev_open k).1 off cs).1).1).2 = 0) ∧
    ((Roulette.dev_open r rnd).2 = 0 →
      (Roulette.dev_open r rnd).1.use_counter = 1 ∧
      ∀ rs : List ReadCall,
        (Roulette.readAll (Roulette.dev_open r rnd).1 rs).use_counter = 1 ∧
        (Roulette.dev_release
          (Roulette.readAll (Roulette.dev_open r rnd).1 rs)).1.use_counter = 0 ∧
        (Roulette.dev_open
          (Roulette.dev_release
            (Roulette.readAll (Roulette.dev_open r rnd).1 rs)).1 rnd2).2 = 0) := by
  refine ⟨?_, ?_, ?_, ?_, ?_, ?_⟩
  · simp only [Korbo.dev_release]
    omega
  · intro h
    simp [Korbo.dev_release, Korbo.dev_open, h]
  · rw [Roulette.dev_release_use_counter]
    omega
  · intro h
    refine (Roulette.dev_open_ok _ rnd ?_).1
    rw [Roulette.dev_release_use_counter, h]
  · intro h
    obtain ⟨_, h1⟩ := Korbo.korbo_dev_open_ok k h
    refine ⟨h1, fun cs off => ?_⟩
    have key : ∀ k1 : Korbo.State, k1.use_counter = 1 →
        (Korbo.dev_release k1).1.use_counter = 0 ∧
          (Korbo.dev_open (Korbo.dev_release k1).1).2 = 0 := by
      intro k1 hk
      simp [Korbo.dev_release, Korbo.dev_open, hk]
    rw [Korbo.korbo_readSeq_state]
    exact ⟨h1, rfl, (key _ h1).1, (key _ h1).2⟩
  · intro h
    have h0 : r.use_counter = 0 := by
      by_cases h0 : r.use_counter = 0
      · exact h0
      · exfalso
        revert h
        simp [Roulette.dev_open, h0, EBUSY]
    obtain ⟨_, h1, _⟩ := Roulette.dev_open_ok r rnd h0
    refine ⟨h1, fun rs => ?_⟩
    have h2 : (Roulette.dev_release
        (Roulette.readAll (Roulette.dev_open r rnd).1 rs)).1.use_counter = 0 := by
      rw [Roulette.dev_release_use_counter, Roulette.readAll_use_counter, h1]
    refine ⟨?_, h2, (Roulette.dev_open_ok _ rnd2 h2).1⟩
    rw [Roulette.readAll_use_counter, h1]

theorem release_frees_gate_witness :
    (Korbo.dev_open (Korbo.dev_release ⟨1⟩).1).2 = 0 ∧
      (Roulette.dev_open (Roulette.dev_release Roulette.firstOpen).1 4).2 = 0 ∧
      (Korbo.dev_open ⟨0⟩).1.use_counter = 1 ∧
      (Korbo.dev_open
        (Korbo.dev_release (Korbo.readSeq (Korbo.dev_open ⟨0⟩).1 0 [(1, true)]).1).1).2 = 0 ∧
      (Roulette.dev_open (Roulette.modinit Roulette.initial) 4).1.use_counter = 1 ∧
      (Roulette.dev_open
        (Roulette.dev_release
          (Roulette.readAll (Roulette.dev_open (Roulette.modinit Roulette.initial) 4).1
            [⟨1, 0, true⟩])).1 9).2 = 0 :=
  ⟨((release_frees_gate ⟨1⟩ Roulette.firstOpen 4 9).2.1 rfl).2,
   (release_frees_gate ⟨1⟩ Roulette.firstOpen 4 9).2.2.2.1 (by rfl),
   ((release_frees_gate ⟨0⟩ (Roulette.modinit Roulette.initial) 4 9).2.2.2.2.1 (by rfl)).1,
   (((release_frees_gate ⟨0⟩ (Roulette.modinit Roulette.initial) 4 9).2.2.2.2.1 (by rfl)).2
     [(1, true)] 0).2.2.2,
   ((release_frees_gate ⟨0⟩ (Roulette.modinit Roulette.initial) 4 9).2.2.2.2.2 (by rfl)).1,
   (((release_frees_gate ⟨0⟩ (Roulette.modinit Roulette.initial) 4 9).2.2.2.2.2 (by rfl)).2
     [⟨1, 0, true⟩]).2.2⟩

/-! ## Draining a device -/

/-- C7 (evaluation of the code): on the constant-string device, reading from
position 0 with a positive `len` until a call returns 0 delivers the 7 bytes
of the array, the six characters of `"Korbo\n"` and then the NUL byte. The
same list comes out for every budget of at least `buffer_len + 1` calls, and
it is not the 6-byte text. -/
theorem Korbo.drain_all (s : Korbo.State) (len k : Nat) :
    Korbo.drain s (len + 1) 0 (Korbo.buffer_len + 1 + k) = cstr "Korbo\n" ++ [0] ∧
    (Korbo.dev_read s (len + 1) 6 true).ret = 1 ∧
    (Korbo.dev_read s (len + 1) 6 true).out = some 0 ∧
    (Korbo.dev_read s (len + 1) 7 true).ret = 0 ∧
    cstr "Korbo\n" ++ [0] ≠ cstr "Korbo\n" := by
  refine ⟨?_, ?_, ?_, ?_, by decide⟩
  · rw [Korbo.korbo_drain_eq, List.drop_zero]
    apply List.take_of_length_le
    simp only [Korbo.buffer_len]
    omega
  · simp [Korbo.dev_read, Korbo.korbo_buffer_len_eq]
  · simp [Korbo.dev_read, Korbo.korbo_buffer_len_eq, Korbo.korbo_buffer_eq]
  · simp [Korbo.dev_read, Korbo.korbo_buffer_len_eq]

namespace Roulette

theorem padded_warning :
    padded (cstr warning_text) = cstr warning_text ++ List.replicate 42 0 := by
  simp only [padded, text_fits.1, buffer_len]

/-- C2 (evaluation of the code): in the first session after module
initialisation, reading from position 0 with a positive `len` until a call
returns 0 delivers 512 bytes: the 470 bytes of the warning text and then 42
NUL bytes. The same list comes out for every budget of at least
`buffer_len + 1` calls, and it is not the warning text alone. -/
theorem first_session_drain (rnd len k : Nat) :
    drain (dev_open (modinit initial) rnd).1 (len + 1) 0 (buffer_len + 1 + k)
      = cstr warning_text ++ List.replicate 42 0 ∧
    (cstr warning_text ++ List.replicate 42 0).length = 512 ∧
    (dev_read (dev_open (modinit initial) rnd).1 (len + 1) 470 true).ret = 1 ∧
    (dev_read (dev_open (modinit initial) rnd).1 (len + 1) 470 true).out = some 0 ∧
    (dev_read (dev_open (modinit initial) rnd).1 (len + 1) 512 true).ret = 0 ∧
    cstr warning_text ++ List.replicate 42 0 ≠ cstr warning_text := by
  have hs : (dev_open (modinit initial) rnd).1.show_warning = true := by
    rw [dev_open_show_warning]
    rfl
  have hb : (generate (dev_open (modinit initial) rnd).1).buffer.val
      = cstr warning_text ++ List.replicate 42 0 := by
    rw [generate_buffer, hs, if_pos rfl, padded_warning]
  have hl : (cstr warning_text ++ List.replicate 42 0).length = 512 := by
    rw [List.length_append, text_fits.1, List.length_replicate]
  refine ⟨?_, hl, ?_, ?_, ?_, ?_⟩
  · rw [drain_eq, hb, List.drop_zero]
    apply List.take_of_length_le
    rw [hl]
    simp only [buffer_len]
    omega
  · simp [dev_read, buffer_len]
  · have h1 : (cstr warning_text ++ List.replicate 42 0)[470]? = some 0 := by
      rw [List.getElem?_append_right (by rw [text_fits.1]), text_fits.1]
      rfl
    have hr : dev_read (dev_open (modinit initial) rnd).1 (len + 1) 470 true
        = ⟨generate (dev_open (modinit initial) rnd).1, 471, 1,
            (generate (dev_open (modinit initial) rnd).1).buffer.val[470]?⟩ := by
      simp [dev_read, buffer_len]
    rw [hr]
    simp only
    rw [hb]
    exact h1
  · simp [dev_read, buffer_len]
  · intro h
    have := congrArg List.length h
    rw [hl, text_fits.1] at this
    exact absurd this (by decide)

end Roulette

/-! ## What a read call does to the device state -/

namespace Roulette

theorem padded_blank : padded (cstr blank_text) = cstr blank_text ++ List.replicate 505 0 := by
  simp only [padded, text_fits.2.1, buffer_len]

theorem padded_bang : padded (cstr bang_text) = cstr bang_text ++ List.replicate 506 0 := by
  simp only [padded, text_fits.2.2, buffer_len]

theorem padded_ne_warning :
    padded (cstr blank_text) ≠ padded (cstr warning_text) ∧
      padded (cstr bang_text) ≠ padded (cstr warning_text) := by
  constructor
  · intro h
    have h1 := congrArg List.head? h
    revert h1
    simp only [padded]
    decide
  · intro h
    have h1 := congrArg List.head? h
    revert h1
    simp only [padded]
    decide

/-- C10: after a `read` call, whatever its `len`, its position, the outcome
of its copy and the buffer before it, the buffer holds the warning text if
`show_warning` was set at the start of the call, otherwise `"Blank.\n"` if
`random_bullet` was not 0, otherwise `"BANG!\n"`, each followed only by zero
bytes up to the 512 bytes of the array; and a later `read` call of the same
session, after any `read` calls in between, leaves the same buffer. -/
theorem read_buffer_pure (s : State) (len off : Nat) (copy_ok : Bool) :
    (dev_read s len off copy_ok).state.buffer.val =
      (if s.show_warning then cstr warning_text ++ List.replicate 42 0
       else if s.random_bullet ≠ 0 then cstr blank_text ++ List.replicate 505 0
       else cstr bang_text ++ List.replicate 506 0) ∧
    (cstr warning_text).length = 470 ∧ (cstr blank_text).length = 7 ∧
    (cstr bang_text).length = 6 ∧
    (dev_read s len off copy_ok).state.buffer.val.length = 512 ∧
    (∀ (rs : List ReadCall) (len2 off2 : Nat) (ok2 : Bool),
      (dev_read (readAll (dev_read s len off copy_ok).state rs) len2 off2 ok2).state.buffer
        = (dev_read s len off copy_ok).state.buffer) := by
  obtain ⟨hw, hb, hg⟩ := text_fits
  refine ⟨?_, hw, hb, hg, (dev_read s len off copy_ok).state.buffer.property, ?_⟩
  · rw [dev_read_state, generate_buffer, padded_warning, padded_blank, padded_bang]
  · intro rs len2 off2 ok2
    apply Subtype.ext
    simp only [dev_read_state, generate_buffer, readAll_show_warning, readAll_random_bullet,
      generate_show_warning, generate_random_bullet]

/-- C4, as stated, fails: in the first session a `read` call with `len` 0
returns 0 and sets `warning_over`, so the state is not the one before the
call; after the warning session, in a session whose draw is 0, a `read` call
with `len` 0, and one at position 512, returns 0 and sets `do_panic`. -/
theorem read_nothing_changes_state :
    (dev_read firstOpen 0 0 true).ret = 0 ∧
    firstOpen.warning_over = false ∧
    (dev_read firstOpen 0 0 true).state.warning_over = true ∧
    (dev_read firstOpen 0 0 true).state ≠ firstOpen ∧
    (dev_open afterWarning 6).1.do_panic = false ∧
    (dev_read (dev_open afterWarning 6).1 0 0 true).ret = 0 ∧
    (dev_read (dev_open afterWarning 6).1 0 0 true).state.do_panic = true ∧
    (dev_read (dev_open afterWarning 6).1 1 512 true).ret = 0 ∧
    (dev_read (dev_open afterWarning 6).1 1 512 true).state.do_panic = true := by
  refine ⟨by rfl, by rfl, by rfl, ?_, by rfl, by rfl, by rfl, by rfl, by rfl⟩
  intro h
  have h1 := congrArg State.warning_over h
  exact absurd h1 (by decide)

/-- C4, amended: a `read` call with `len` 0, or with the position at or
beyond `buffer_len`, returns 0, copies no byte and leaves the position,
`show_warning`, `random_bullet` and `use_counter` as they were; `warning_over`,
`do_panic` and the buffer are set by content generation as in every `read`
call (`warning_over` is set if `show_warning` is set, `do_panic` is set if
`show_warning` is clear and `random_bullet` is 0, the buffer becomes the text
chosen by `show_warning` and `random_bullet` followed by zero bytes up to 512
bytes); repeating the call changes nothing more. -/
theorem read_nothing_frame (s : State) (len off : Nat) (copy_ok : Bool)
    (h : len = 0 ∨ off ≥ buffer_len) :
    (dev_read s len off copy_ok).ret = 0 ∧
    (dev_read s len off copy_ok).out = none ∧
    (dev_read s len off copy_ok).off = off ∧
    (dev_read s len off copy_ok).state.show_warning = s.show_warning ∧
    (dev_read s len off copy_ok).state.random_bullet = s.random_bullet ∧
    (dev_read s len off copy_ok).state.use_counter = s.use_counter ∧
    (dev_read s len off copy_ok).state.warning_over = (s.warning_over || s.show_warning) ∧
    (dev_read s len off copy_ok).state.do_panic
      = (s.do_panic || (!s.show_warning && decide (s.random_bullet = 0))) ∧
    (dev_read s len off copy_ok).state.buffer.val =
      (if s.show_warning then cstr warning_text ++ List.replicate 42 0
       else if s.random_bullet ≠ 0 then cstr blank_text ++ List.replicate 505 0
       else cstr bang_text ++ List.replicate 506 0) ∧
    (dev_read (dev_read s len off copy_ok).state len off copy_ok).state
      = (dev_read s len off copy_ok).state := by
  have hc : off ≥ buffer_len ∨ len = 0 := h.symm
  refine ⟨?_, ?_, ?_, ?_, ?_, ?_, ?_, ?_, ?_, ?_⟩
  · simp only [dev_read, hc, if_true]
  · simp only [dev_read, hc, if_true]
  · simp only [dev_read, hc, if_true]
  · rw [dev_read_state, generate_show_warning]
  · rw [dev_read_state, generate_random_bullet]
  · rw [dev_read_state, generate_use_counter]
  · rw [dev_read_state, generate_warning_over]
  · rw [dev_read_state, generate_do_panic]
  · rw [dev_read_state, generate_buffer, padded_warning, padded_blank, padded_bang]
  · rw [dev_read_state, dev_read_state, generate_idem]

theorem read_nothing_frame_witness :
    (dev_read firstOpen 0 3 true).ret = 0 ∧ (dev_read firstOpen 0 3 true).off = 3 ∧
      (dev_read firstOpen 7 512 true).ret = 0 ∧
      (dev_read firstOpen 7 512 true).state.buffer.val =
        (if firstOpen.show_warning then cstr warning_text ++ List.replicate 42 0
         else if firstOpen.random_bullet ≠ 0 then cstr blank_text ++ List.replicate 505 0
         else cstr bang_text ++ List.replicate 506 0) :=
  ⟨(read_nothing_frame firstOpen 0 3 true (Or.inl rfl)).1,
   (read_nothing_frame firstOpen 0 3 true (Or.inl rfl)).2.2.1,
   (read_nothing_frame firstOpen 7 512 true (Or.inr (by decide))).1,
   (read_nothing_frame firstOpen 7 512 true (Or.inr (by decide))).2.2.2.2.2.2.2.2.1⟩

end Roulette

/-! ## The warning is shown in one session only -/

namespace Roulette

theorem step_show_warning (s : State) (c : Call) (h : s.show_warning = false) :
    (step s c).1.show_warning = false := by
  cases c with
  | doOpen rnd => simp only [step, dev_open_show_warning, h]
  | doRead len off copy_ok => simp only [step, dev_read_state, generate_show_warning, h]
  | doRelease => simp only [step, dev_release_show_warning, h, Bool.false_and]

theorem exec_show_warning (cs : List Call) :
    ∀ s : State, s.show_warning = false →
      ∀ e ∈ exec s cs, e.2.1.show_warning = false ∧
        (∀ len off copy_ok, e.1 = Call.doRead len off copy_ok →
          e.2.1.buffer.val ≠ cstr warning_text ++ List.replicate 42 0) := by
  induction cs with
  | nil => intro s _ e he; simp [exec] at he
  | cons c cs ih =>
    intro s hs e he
    have h1 := step_show_warning s c hs
    have hb : ∀ len off copy_ok, c = Call.doRead len off copy_ok →
        (step s c).1.buffer.val ≠ cstr warning_text ++ List.replicate 42 0 := by
      intro len off copy_ok hc
      subst hc
      simp only [step, dev_read_state, generate_buffer, hs, Bool.false_eq_true, if_false]
      rw [← padded_warning]
      split_ifs
      · exact padded_ne_warning.1
      · exact padded_ne_warning.2
    simp only [exec] at he
    split at he
    · rename_i s1 heq
      simp only [List.mem_singleton] at he
      subst he
      have h2 : s1 = (step s c).1 := by rw [heq]
      subst h2
      exact ⟨h1, hb⟩
    · rename_i s1 v heq
      have h2 : s1 = (step s c).1 := by rw [heq]
      subst h2
      simp only [List.mem_cons] at he
      rcases he with he | he
      · subst he
        exact ⟨h1, hb⟩
      · exact ih _ h1 e he

/-- C5: when a session made a `read` call while `show_warning` was set, its
`release` leaves `show_warning` clear, and after every later list of `open`,
`read` and `release` calls, in any order, `show_warning` is still clear and
no `read` call has left the warning text in the buffer. -/
theorem warning_only_once (s : State) (rnd : Nat) (rs : List ReadCall) (cs : List Call)
    (h : ∃ p ∈ readPre (dev_open s rnd).1 rs, p.show_warning = true) :
    (dev_release (readAll (dev_open s rnd).1 rs)).1.show_warning = false ∧
    ∀ e ∈ exec (dev_release (readAll (dev_open s rnd).1 rs)).1 cs,
      e.2.1.show_warning = false ∧
      (∀ len off copy_ok, e.1 = Call.doRead len off copy_ok →
        e.2.1.buffer.val ≠ cstr warning_text ++ List.replicate 42 0) := by
  rw [readPre_exists rs (dev_open s rnd).1 (fun w _ => w = true)] at h
  have h1 : (dev_release (readAll (dev_open s rnd).1 rs)).1.show_warning = false := by
    rw [dev_release_show_warning, readAll_warning_over, readAll_show_warning, h.1, h.2]
    simp
  exact ⟨h1, exec_show_warning cs _ h1⟩

theorem warning_only_once_witness :
    (dev_release (readAll (dev_open (modinit initial) 3).1 [⟨1, 0, true⟩])).1.show_warning
      = false ∧
    ∀ e ∈ exec (dev_release (readAll (dev_open (modinit initial) 3).1 [⟨1, 0, true⟩])).1
        [Call.doOpen 9, Call.doRead 1 0 true, Call.doRelease],
      e.2.1.show_warning = false ∧
      (∀ len off copy_ok, e.1 = Call.doRead len off copy_ok →
        e.2.1.buffer.val ≠ cstr warning_text ++ List.replicate 42 0) :=
  warning_only_once (modinit initial) 3 [⟨1, 0, true⟩]
    [Call.doOpen 9, Call.doRead 1 0 true, Call.doRelease]
    ⟨(dev_open (modinit initial) 3).1, by simp [readPre], by rfl⟩

end Roulette

/-! ## One byte per read call -/

/-- C8: on both devices a `read` call with positive `len`, a position `off`
below `buffer_len` and a copy that succeeds returns 1, delivers the byte at
index `off` of the buffer (the index is within the array; on the roulette
device the buffer is the one the call has just generated) and leaves the
position at `off + 1`; and after any list of `read` calls that starts at
position 0 the position is at most `buffer_len`. -/
theorem read_one_byte (k : Korbo.State) (r : Roulette.State) (len off : Nat)
    (hlen : 0 < len) :
    (off < Korbo.buffer_len →
      (Korbo.dev_read k len off true).ret = 1 ∧
      (∃ hi : off < Korbo.buffer.length,
        (Korbo.dev_read k len off true).out = some (Korbo.buffer.get ⟨off, hi⟩)) ∧
      (Korbo.dev_read k len off true).off = off + 1) ∧
    (off < Roulette.buffer_len →
      (Roulette.dev_read r len off true).ret = 1 ∧
      (∃ hi : off < (Roulette.dev_read r len off true).state.buffer.val.length,
        (Roulette.dev_read r len off true).out
          = some ((Roulette.dev_read r len off true).state.buffer.val.get ⟨off, hi⟩)) ∧
      (Roulette.dev_read r len off true).off = off + 1) ∧
    (∀ cs : List (Nat × Bool), (Korbo.readSeq k 0 cs).2 ≤ Korbo.buffer_len) ∧
    (∀ cs : List (Nat × Bool), (Roulette.readSeq r 0 cs).2 ≤ Roulette.buffer_len) := by
  have hl : len ≠ 0 := Nat.pos_iff_ne_zero.mp hlen
  refine ⟨?_, ?_, ?_, ?_⟩
  · intro h
    have hr : Korbo.dev_read k len off true = ⟨k, off + 1, 1, Korbo.buffer[off]?⟩ := by
      simp [Korbo.dev_read, h, hl]
    have hi : off < Korbo.buffer.length := h
    rw [hr]
    refine ⟨rfl, ⟨hi, ?_⟩, rfl⟩
    simp only [List.get_eq_getElem]
    exact List.getElem?_eq_getElem hi
  · intro h
    have hr : Roulette.dev_read r len off true
        = ⟨Roulette.generate r, off + 1, 1, (Roulette.generate r).buffer.val[off]?⟩ := by
      simp [Roulette.dev_read, h, hl]
    have hi : off < (Roulette.generate r).buffer.val.length := by
      rw [(Roulette.generate r).buffer.property]
      exact h
    rw [hr]
    refine ⟨rfl, ⟨hi, ?_⟩, rfl⟩
    simp only [List.get_eq_getElem]
    exact List.getElem?_eq_getElem hi
  · intro cs
    exact Korbo.korbo_readSeq_off_le cs k 0 (Nat.zero_le _)
  · intro cs
    exact Roulette.readSeq_off_le cs r 0 (Nat.zero_le _)

theorem read_one_byte_witness :
    (Korbo.dev_read ⟨1⟩ 1 0 true).ret = 1 ∧
      (Roulette.dev_read Roulette.firstOpen 1 0 true).off = 0 + 1 :=
  ⟨((read_one_byte ⟨1⟩ Roulette.firstOpen 1 0 (by decide)).1 (by decide)).1,
   ((read_one_byte ⟨1⟩ Roulette.firstOpen 1 0 (by decide)).2.1 (by decide)).2.2⟩
